import Mathlib

/-!
Shallow embedding of the rillian/nitro-enclave-utils Go package
(files: enclave.go and the attestation handler file), for checking the
claims of the specification about the attestation endpoint, the NSM
attestation operation, certificate fingerprint extraction and enclave
startup.

Bytes are modelled as `Nat` (Go bytes are values below 256; where the
behaviour of the code depends on byte arithmetic we take remainders
explicitly).  External libraries (x509 parsing, SHA-256) are modelled as
function parameters, since the code under analysis only routes their
results; all control flow of the code belonging to the repository is translated
directly from the source.
-/

namespace NitroEnclaveUtils

/-- The number of hex digits in a nonce (Go constant nonceLen = 40). -/
def nonceLen : Nat := 40

/-- Go string constant errMethodNotGET. -/
def errMethodNotGET : String := "only HTTP GET requests are allowed"

/-- Go string constant errBadForm. -/
def errBadForm : String := "failed to parse POST form data"

/-- Go string constant errNoNonce. -/
def errNoNonce : String := "could not find nonce in URL query parameters"

/-- Go string constant errBadNonceFormat, i.e. the result of
fmt.Sprintf with nonceLen = 40 substituted. -/
def errBadNonceFormat : String := "unexpected nonce format; must be 40-digit hex string"

/-- Go string constant errFailedAttestation. -/
def errFailedAttestation : String := "failed to obtain attestation document from hypervisor"

/-- Whether a character is matched by the regular-expression character
class of lowercase hex digits used in nonceRegExp: the ranges a to f
(code points 97 to 102) and 0 to 9 (code points 48 to 57). -/
def isLowerHexDigit (c : Char) : Bool :=
  decide ((97 ≤ c.toNat ∧ c.toNat ≤ 102) ∨ (48 ≤ c.toNat ∧ c.toNat ≤ 57))

/-- There are n consecutive lowercase-hex characters at the head of the
list (a match of the regular expression at this position). -/
def hexRunFrom : Nat → List Char → Bool
  | 0, _ => true
  | _ + 1, [] => false
  | n + 1, c :: rest => isLowerHexDigit c && hexRunFrom n rest

/-- Some suffix of the list starts with n consecutive lowercase-hex
characters. -/
def containsHexRun (n : Nat) : List Char → Bool
  | [] => hexRunFrom n []
  | c :: rest => hexRunFrom n (c :: rest) || containsHexRun n rest

/-- Model of Go regexp.MatchString(nonceRegExp, s), where nonceRegExp is
the UNANCHORED pattern of a run of nonceLen lowercase hex digits: the
call reports whether s CONTAINS such a run anywhere, not whether the
whole string is such a run. -/
def matchNonceRegExp (s : String) : Bool :=
  containsHexRun nonceLen s.data

/-- Model of the per-character table of Go encoding/hex decoding: digits
0 to 9 (code points 48 to 57), lowercase a to f (97 to 102) and ALSO
uppercase A to F (65 to 70) are accepted by hex.DecodeString. -/
def fromHexChar (c : Char) : Option Nat :=
  if 48 ≤ c.toNat ∧ c.toNat ≤ 57 then some (c.toNat - 48)
  else if 97 ≤ c.toNat ∧ c.toNat ≤ 102 then some (c.toNat - 97 + 10)
  else if 65 ≤ c.toNat ∧ c.toNat ≤ 70 then some (c.toNat - 65 + 10)
  else none

/-- Model of Go hex.DecodeString: pairs of hex digits become bytes; an
odd-length input or a non-hex character is an error (none). -/
def hexDecodeChars : List Char → Option (List Nat)
  | [] => some []
  | [_] => none
  | c1 :: c2 :: rest =>
    match fromHexChar c1, fromHexChar c2, hexDecodeChars rest with
    | some h, some l, some bs => some ((16 * h + l) :: bs)
    | _, _, _ => none

/-- The lowercase hex digit character for a value below 16 (Go
encoding/hex hextable). -/
def toHexChar (n : Nat) : Char :=
  if n < 10 then Char.ofNat (48 + n) else Char.ofNat (97 + (n - 10))

/-- Model of Go hex.EncodeToString over a byte list: each byte b becomes
hextable b shift right by 4 then hextable of the low 4 bits (Go bytes
are below 256; the remainders make the model total on Nat). -/
def hexEncodeBytes : List Nat → List Char
  | [] => []
  | b :: bs => toHexChar (b / 16 % 16) :: toHexChar (b % 16) :: hexEncodeBytes bs

/-- The standard base64 alphabet character for a value below 64
(A to Z, a to z, 0 to 9, plus, slash), as in Go base64.StdEncoding. -/
def base64Char (n : Nat) : Char :=
  if n < 26 then Char.ofNat (65 + n)
  else if n < 52 then Char.ofNat (97 + (n - 26))
  else if n < 62 then Char.ofNat (48 + (n - 52))
  else if n = 62 then Char.ofNat 43
  else Char.ofNat 47

/-- Model of Go base64.StdEncoding.EncodeToString: groups of three bytes
become four alphabet characters; a trailing group of one or two bytes is
padded with the pad character (code point 61). -/
def base64EncodeChars : List Nat → List Char
  | [] => []
  | [b1] =>
    [base64Char (b1 / 4 % 64), base64Char (b1 % 4 * 16), Char.ofNat 61, Char.ofNat 61]
  | [b1, b2] =>
    [base64Char (b1 / 4 % 64), base64Char (b1 % 4 * 16 + b2 / 16 % 16),
     base64Char (b2 % 16 * 4), Char.ofNat 61]
  | b1 :: b2 :: b3 :: rest =>
    base64Char (b1 / 4 % 64) :: base64Char (b1 % 4 * 16 + b2 / 16 % 16) ::
    base64Char (b2 % 16 * 4 + b3 / 64 % 4) :: base64Char (b3 % 64) ::
    base64EncodeChars rest

/-- Base64 encoding as a string. -/
def base64Encode (bs : List Nat) : String :=
  String.mk (base64EncodeChars bs)

/-- The request submitted to the NSM device by attest: a
request.Attestation value with nonce, user data and public key. -/
structure AttestationRequest where
  nonce : List Nat
  userData : List Nat
  publicKey : List Nat
deriving DecidableEq, Repr

/-- The attestation part of an NSM response; Document is nil-able. -/
structure AttestationDoc where
  document : Option (List Nat)
deriving DecidableEq, Repr

/-- An NSM response as inspected by attest: an error string (empty means
no device error) and an optional attestation payload. -/
structure NsmResponse where
  error : String
  attestation : Option AttestationDoc
deriving DecidableEq, Repr

/-- A session with the NSM device.  Send returns the response together
with the low-level error of the driver (which attest ignores); closeErr
is the error that Close would report. -/
structure NsmSession where
  send : AttestationRequest → NsmResponse × Option String
  closeErr : Option String

/-- The NSM device as seen through nsm.OpenDefaultSession: either a
session or an open error. -/
structure NsmDevice where
  openSession : Except String NsmSession

/-- Observable trace of one attest call: the request submitted to the
device (none if the session could not be opened, so Send never ran) and
the number of times Close was invoked on the session. -/
structure AttestTrace where
  request : Option AttestationRequest
  closeCalls : Nat
deriving DecidableEq, Repr

/-- Go error message for a response without an attestation document. -/
def noDocumentMsg : String := "NSM device did not return an attestation"

/-- Shallow embedding of func attest(nonce, userData, publicKey) from
the handler file.  It opens the default NSM session, submits a
request.Attestation whose PublicKey field is the EMPTY byte slice (the
publicKey parameter is never used), ignores the low-level error of Send
(the known driver quirk), treats a non-empty response error field as
authoritative failure, a missing attestation or document as failure, and
otherwise returns the document.  The deferred Close runs exactly once on
every path after a successful open, and its error is only logged: the
assignment to the local err inside the deferred function cannot change
the already-determined unnamed return values. -/
def attest (nonce userData publicKey : List Nat) (dev : NsmDevice) :
    AttestTrace × Except String (List Nat) :=
  match dev.openSession with
  | .error e => (⟨none, 0⟩, .error e)
  | .ok s =>
    let req : AttestationRequest := ⟨nonce, userData, []⟩
    let res := (s.send req).1
    if res.error ≠ "" then (⟨some req, 1⟩, .error res.error)
    else
      match res.attestation with
      | none => (⟨some req, 1⟩, .error noDocumentMsg)
      | some att =>
        match att.document with
        | none => (⟨some req, 1⟩, .error noDocumentMsg)
        | some doc => (⟨some req, 1⟩, .ok doc)

/-- The parts of an HTTP request the handler inspects: the method,
whether r.ParseForm() succeeds, and the value of the nonce query
parameter (Query().Get in Go returns the empty string when absent). -/
structure HttpRequest where
  method : String
  parseFormOk : Bool
  nonce : String
deriving DecidableEq, Repr

/-- The observable HTTP response: status code and body. -/
structure HttpResponse where
  status : Nat
  body : String
deriving DecidableEq, Repr

/-- Model of Go http.Error(w, msg, code): it writes the message followed
by a newline and sets the status code. -/
def httpError (msg : String) (code : Nat) : HttpResponse :=
  ⟨code, msg ++ "\n"⟩

/-- Shallow embedding of getAttestationHandler(certHash) applied to a
request.  The second component records whether the attestation provider
(attest) was invoked and with which raw nonce; by construction every
invocation passes certHash as user data and an empty public key.  The
success body is fmt.Fprintln of the base64 document, i.e. the encoding
followed by one newline, with the implicit status 200. -/
def getAttestationHandler (certHash : List Nat) (dev : NsmDevice) (r : HttpRequest) :
    HttpResponse × Option (List Nat) :=
  if r.method ≠ "GET" then (httpError errMethodNotGET 405, none)
  else if !r.parseFormOk then (httpError errBadForm 400, none)
  else if r.nonce = "" then (httpError errNoNonce 400, none)
  else if !matchNonceRegExp r.nonce then (httpError errBadNonceFormat 400, none)
  else
    match hexDecodeChars r.nonce.data with
    | none => (httpError errBadNonceFormat 400, none)
    | some rawNonce =>
      match (attest rawNonce certHash [] dev).2 with
      | .error _ => (httpError errFailedAttestation 500, some rawNonce)
      | .ok rawDoc => (⟨200, base64Encode rawDoc ++ "\n"⟩, some rawNonce)

/-- A parsed x509 certificate as far as setCertFingerprint inspects it:
its raw DER bytes (cert.Raw) and its IsCA flag. -/
structure Cert where
  raw : List Nat
  isCA : Bool
deriving DecidableEq, Repr

/-- One PEM block: its type line and its payload bytes.  A certificate
bundle is modelled as the list of PEM blocks that successive calls of
pem.Decode peel off the buffer; an exhausted buffer is the empty list,
on which pem.Decode reports no PEM data. -/
structure PemBlock where
  type : String
  bytes : List Nat
deriving DecidableEq, Repr

/-- Go error message produced when pem.Decode finds no block. -/
def malformedPemMsg : String :=
  "pem.Decode failed because it did not find PEM data in the input we provided"

/-- Shallow embedding of (e *Enclave).setCertFingerprint, parameterized
by the external x509 parser and hash.  Result: error, or ok (some fpr)
when the fingerprint was set, or ok none for the trailing
return of nil without setting anything.

The Go loop reads: rest is initialized to an empty non-nil slice, and
the loop condition tests rest non-nil; but the assignment inside the
loop declares a NEW rest that shadows it, so the outer rest is never
reassigned, the condition is always true, and the trailing return nil
(the not-found outcome) is unreachable.  The loop therefore only exits
through one of the returns inside it: once the buffer is exhausted,
pem.Decode finds no block and the malformed-input error is returned,
also when the buffer held only CA certificates.  The embedding mirrors
exactly those reachable paths, which is why ok none is never produced. -/
def setCertFingerprint (parseCertificate : List Nat → Except String Cert)
    (sha256sum : List Nat → List Nat) :
    List PemBlock → Except String (Option (List Nat))
  | [] => .error malformedPemMsg
  | b :: rest =>
    if b.type = "CERTIFICATE" then
      match parseCertificate b.bytes with
      | .error e => .error e
      | .ok cert =>
        if !cert.isCA then .ok (some (sha256sum cert.raw))
        else setCertFingerprint parseCertificate sha256sum rest
    else setCertFingerprint parseCertificate sha256sum rest

/-- The Go zero value of the [32]byte fingerprint field of Enclave. -/
def zeroFingerprint : List Nat := List.replicate 32 0

/-- The enclave state observed at and after startup, as far as the
fingerprint invariant is concerned: the certFpr field, the fingerprint
value captured by the registered attestation handler (none before
registration; the handler receives the [32]byte array BY VALUE, so later
writes to certFpr do not reach it), and the certificate the active TLS
configuration serves. -/
structure EnclaveState where
  certFpr : List Nat
  handlerFpr : Option (List Nat)
  activeCert : Option Cert
deriving DecidableEq, Repr

/-- The enclave state at the start of Start: zero fingerprint, no
handler registered, no certificate installed. -/
def initialEnclaveState : EnclaveState :=
  ⟨zeroFingerprint, none, none⟩

/-- Shallow embedding of the self-signed startup path of Start: it runs
genSelfSignedCert, which creates a fresh leaf certificate (modelled as
the parameter newCert), PEM-encodes it as a single CERTIFICATE block,
calls setCertFingerprint on that buffer and installs the certificate in
the TLS configuration; Start then registers the attestation handler with
the current value of certFpr.  All of this is synchronous. -/
def startSelfSigned (parseCertificate : List Nat → Except String Cert)
    (sha256sum : List Nat → List Nat) (newCert : Cert) :
    Except String EnclaveState :=
  match setCertFingerprint parseCertificate sha256sum [⟨"CERTIFICATE", newCert.raw⟩] with
  | .error e => .error e
  | .ok none =>
    .ok { certFpr := zeroFingerprint, handlerFpr := some zeroFingerprint,
          activeCert := some newCert }
  | .ok (some fpr) =>
    .ok { certFpr := fpr, handlerFpr := some fpr, activeCert := some newCert }

/-- The two events of the ACME startup path whose relative order is not
fixed by the code: the main thread of Start registering the attestation
handler (immediately after setupAcme returns), and the background poller
obtaining the issued certificate from the cache, after which the TLS
GetCertificate of the TLS configuration serves it and setCertFingerprint is run
on it (its return value is discarded by the goroutine). -/
inductive AcmeEvent
  | registerHandler
  | fetchCertificate
deriving DecidableEq, Repr

/-- One step of the ACME startup path. -/
def acmeStep (parseCertificate : List Nat → Except String Cert)
    (sha256sum : List Nat → List Nat) (acmeCert : Cert)
    (s : EnclaveState) : AcmeEvent → EnclaveState
  | .registerHandler => { s with handlerFpr := some s.certFpr }
  | .fetchCertificate =>
    { s with
      activeCert := some acmeCert,
      certFpr :=
        match setCertFingerprint parseCertificate sha256sum
            [⟨"CERTIFICATE", acmeCert.raw⟩] with
        | .ok (some fpr) => fpr
        | _ => s.certFpr }

/-- Shallow embedding of the ACME startup path of Start and setupAcme:
from the initial state, the given interleaving of the two events is
executed.  In the program, registration is the statement directly after
setupAcme returns, while the poller waits on the certificate cache. -/
def startAcme (parseCertificate : List Nat → Except String Cert)
    (sha256sum : List Nat → List Nat) (acmeCert : Cert)
    (order : List AcmeEvent) : EnclaveState :=
  order.foldl (acmeStep parseCertificate sha256sum acmeCert) initialEnclaveState

/-- SPEC-SIDE predicate (from the words of the claim, for comparison with the
code): a well-formed nonce is EXACTLY 40 lowercase hexadecimal digits. -/
def isExact40LowerHexNonce (s : String) : Bool :=
  decide (s.data.length = 40) && s.data.all isLowerHexDigit

/-- Concrete x509 parser used for evaluations: every byte list parses,
and the lists [1] and [3] are the CA certificates. -/
def parseC : List Nat → Except String Cert :=
  fun bs => .ok ⟨bs, bs == [1] || bs == [3]⟩

/-- Concrete stand-in hash used for evaluations. -/
def hashC : List Nat → List Nat := fun bs => 1 :: bs

/-- Concrete ACME-issued leaf certificate used for evaluations. -/
def acmeC : Cert := ⟨[2], false⟩

/-- Concrete send function of a well-behaved device: empty error field,
document [7], no low-level error. -/
def sendOkC : AttestationRequest → NsmResponse × Option String :=
  fun _ => (⟨"", some ⟨some [7]⟩⟩, none)

/-- Concrete device whose session always returns document [7]. -/
def devOkC : NsmDevice := ⟨.ok ⟨sendOkC, none⟩⟩

/-- Concrete device error message used for evaluations. -/
def boomMsg : String := "boom"

/-- Concrete close-failure message used for evaluations. -/
def closeFailMsg : String := "close failed"

/-- Concrete low-level driver error message used for evaluations. -/
def ioErrMsg : String := "io error"

/-- Concrete send function of a device reporting the error boom in the
response while the driver also reports a low-level error. -/
def sendErrC : AttestationRequest → NsmResponse × Option String :=
  fun _ => (⟨boomMsg, none⟩, some ioErrMsg)

/-- Concrete device for the device-error case, whose Close also fails. -/
def devErrC : NsmDevice := ⟨.ok ⟨sendErrC, some closeFailMsg⟩⟩

/-- Concrete send function of a device returning neither an error nor an
attestation payload, with a low-level driver error. -/
def sendNoDocC : AttestationRequest → NsmResponse × Option String :=
  fun _ => (⟨"", none⟩, some ioErrMsg)

/-- Concrete device for the missing-document case. -/
def devNoDocC : NsmDevice := ⟨.ok ⟨sendNoDocC, none⟩⟩

/-- A 42-character string of the letter a: NOT a 40-digit nonce, yet it
contains a 40-long run of lowercase hex digits. -/
def nonce42 : String := "aaaaaaaaaaaaaaaaaaaaaaaaaaaaaaaaaaaaaaaaaa"

/-- A 40-character string of the letter a: a well-formed nonce. -/
def nonce40 : String := "aaaaaaaaaaaaaaaaaaaaaaaaaaaaaaaaaaaaaaaa"

theorem nonce42_length : nonce42.data.length = 42 := by decide

theorem nonce40_length : nonce40.data.length = 40 := by decide

theorem fromHexChar_of_lower (c : Char) (h : isLowerHexDigit c = true) :
    ∃ v, fromHexChar c = some v := by
  unfold isLowerHexDigit at h
  rw [decide_eq_true_eq] at h
  unfold fromHexChar
  split_ifs with h1 h2 h3
  · exact ⟨_, rfl⟩
  · exact ⟨_, rfl⟩
  · exact ⟨_, rfl⟩
  · exact absurd h (by push_neg at h1 h2 h3 ⊢; omega)

theorem hexRunFrom_all (l : List Char) (h : ∀ c ∈ l, isLowerHexDigit c = true) :
    hexRunFrom l.length l = true := by
  induction l with
  | nil => rfl
  | cons c cs ih =>
    rw [List.length_cons]
    unfold hexRunFrom
    rw [h c (List.mem_cons_self c cs), ih (fun x hx => h x (List.mem_cons_of_mem c hx))]
    rfl

theorem matchNonceRegExp_of_all (s : String) (hlen : s.data.length = 40)
    (h : ∀ c ∈ s.data, isLowerHexDigit c = true) :
    matchNonceRegExp s = true := by
  unfold matchNonceRegExp nonceLen
  have hrun : hexRunFrom 40 s.data = true := by
    have := hexRunFrom_all s.data h
    rwa [hlen] at this
  cases hd : s.data with
  | nil => rw [hd] at hlen; simp at hlen
  | cons c cs =>
    rw [hd] at hrun
    unfold containsHexRun
    rw [hrun]
    rfl

theorem hexDecodeChars_length (l : List Char) (bs : List Nat)
    (h : hexDecodeChars l = some bs) : 2 * bs.length = l.length := by
  induction l using hexDecodeChars.induct generalizing bs with
  | case1 =>
    cases h
    rfl
  | case2 c =>
    cases h
  | case3 c1 c2 rest v1 v2 bs0 hrest hc2 hc1 ih =>
    unfold hexDecodeChars at h
    rw [hc1, hc2, hrest] at h
    cases h
    have := ih bs0 hrest
    simp only [List.length_cons]
    omega
  | case4 c1 c2 rest hnone ih =>
    unfold hexDecodeChars at h
    cases hc1 : fromHexChar c1 <;> rw [hc1] at h
    · cases h
    cases hc2 : fromHexChar c2 <;> rw [hc2] at h
    · cases h
    cases hr : hexDecodeChars rest <;> rw [hr] at h
    · cases h
    · exact (hnone _ _ _ hc1 hc2 hr).elim

theorem hexDecodeChars_total (l : List Char)
    (hhex : ∀ c ∈ l, isLowerHexDigit c = true) (heven : l.length % 2 = 0) :
    ∃ bs, hexDecodeChars l = some bs ∧ 2 * bs.length = l.length := by
  induction l using hexDecodeChars.induct with
  | case1 => exact ⟨[], rfl, rfl⟩
  | case2 c => simp at heven
  | case3 c1 c2 rest v1 v2 bs0 hrest hc2 hc1 ih =>
    refine ⟨(16 * v1 + v2) :: bs0, ?_, ?_⟩
    · unfold hexDecodeChars
      rw [hc1, hc2, hrest]
    · have := hexDecodeChars_length rest bs0 hrest
      simp only [List.length_cons]
      omega
  | case4 c1 c2 rest hnone ih =>
    obtain ⟨v1, hv1⟩ := fromHexChar_of_lower c1 (hhex c1 (by simp))
    obtain ⟨v2, hv2⟩ := fromHexChar_of_lower c2 (hhex c2 (by simp))
    obtain ⟨bs, hbs, hlen⟩ := ih (fun c hc => hhex c (by simp [hc]))
      (by simp only [List.length_cons] at heven; omega)
    exact (hnone v1 v2 bs hv1 hv2 hbs).elim

theorem fromHexChar_toHexChar (n : Nat) (h : n < 16) :
    fromHexChar (toHexChar n) = some n := by
  interval_cases n <;> rfl

theorem hexDecode_hexEncode (bs : List Nat) (h : ∀ b ∈ bs, b < 256) :
    hexDecodeChars (hexEncodeBytes bs) = some bs := by
  induction bs with
  | nil => rfl
  | cons b rest ih =>
    have hb : b < 256 := h b (List.mem_cons_self b rest)
    unfold hexEncodeBytes hexDecodeChars
    rw [fromHexChar_toHexChar (b / 16 % 16) (Nat.mod_lt _ (by omega)),
        fromHexChar_toHexChar (b % 16) (Nat.mod_lt _ (by omega)),
        ih (fun x hx => h x (List.mem_cons_of_mem b hx))]
    show some ((16 * (b / 16 % 16) + b % 16) :: rest) = some (b :: rest)
    have : 16 * (b / 16 % 16) + b % 16 = b := by omega
    rw [this]

/-- C3: for every attest call, a device response whose error field is
non-empty makes attest fail with the device-supplied message, and (the
error field being empty, which in the code takes precedence) a response
whose attestation payload or document is absent makes attest fail with
the no-document message; both hold for EVERY send function, in
particular whatever low-level error value the driver returns alongside
the response, since attest discards that component. -/
theorem attest_response_error_authoritative (nonce userData pk : List Nat)
    (send : AttestationRequest → NsmResponse × Option String) (cErr : Option String)
    (res : NsmResponse) (hres : (send ⟨nonce, userData, []⟩).1 = res) :
    (res.error ≠ "" →
      (attest nonce userData pk ⟨.ok ⟨send, cErr⟩⟩).2 = .error res.error) ∧
    (res.error = "" → (res.attestation = none ∨ res.attestation = some ⟨none⟩) →
      (attest nonce userData pk ⟨.ok ⟨send, cErr⟩⟩).2 = .error noDocumentMsg) := by
  constructor
  · intro hne
    simp only [attest, hres]
    rw [if_pos hne]
  · intro he hdoc
    simp only [attest, hres]
    rw [if_neg (by simp [he])]
    rcases hdoc with hd | hd <;> rw [hd]

theorem attest_response_error_authoritative_witness :
    (attest [1] [2] [] devErrC).2 = .error boomMsg ∧
    (attest [1] [2] [] devNoDocC).2 = .error noDocumentMsg := by
  constructor
  · exact (attest_response_error_authoritative [1] [2] [] sendErrC (some closeFailMsg)
      ⟨boomMsg, none⟩ rfl).1 (by decide)
  · exact (attest_response_error_authoritative [1] [2] [] sendNoDocC none
      ⟨"", none⟩ rfl).2 rfl (Or.inl rfl)

/-- C4: for every attest call whose session open succeeds (a device
whose openSession is ok), Close is invoked exactly once, whatever the
send function does (send failure, device error, missing document or
success), and the outcome of Close (the closeErr component) changes
nothing about the result of attest. -/
theorem attest_closes_session_once (nonce userData pk : List Nat)
    (send : AttestationRequest → NsmResponse × Option String) (c1 c2 : Option String) :
    (attest nonce userData pk ⟨.ok ⟨send, c1⟩⟩).1.closeCalls = 1 ∧
    attest nonce userData pk ⟨.ok ⟨send, c1⟩⟩ =
      attest nonce userData pk ⟨.ok ⟨send, c2⟩⟩ := by
  constructor
  · simp only [attest]
    split
    · rfl
    · split
      · rfl
      · split <;> rfl
  · rfl

/-- C10: the publicKey argument of attest has no effect on its
behaviour, and the request submitted to the device always carries the
empty public key. -/
theorem attest_publicKey_ignored (nonce userData pk1 pk2 : List Nat) (dev : NsmDevice) :
    attest nonce userData pk1 dev = attest nonce userData pk2 dev ∧
    ∀ req, (attest nonce userData pk1 dev).1.request = some req →
      req.publicKey = [] := by
  constructor
  · rfl
  · intro req hreq
    cases hdev : dev.openSession with
    | error e => simp [attest, hdev] at hreq
    | ok s =>
      simp only [attest, hdev] at hreq
      split at hreq
      · cases hreq
        rfl
      · split at hreq
        · cases hreq
          rfl
        · split at hreq <;> (cases hreq; rfl)

theorem attest_publicKey_ignored_witness :
    attest [1] [2] [3] devOkC = attest [1] [2] [9] devOkC ∧
    (⟨[1], [2], []⟩ : AttestationRequest).publicKey = [] :=
  ⟨(attest_publicKey_ignored [1] [2] [3] [9] devOkC).1,
   (attest_publicKey_ignored [1] [2] [3] [9] devOkC).2 ⟨[1], [2], []⟩ (by decide)⟩

/-- C9 (amended): for every request whose method is not GET, the handler
responds with status 405 and the message of the errMethodNotGET constant
(which reads: only HTTP GET requests are allowed, not the shorter message quoted by the spec:
shorter: only GET requests are allowed), followed by the newline that
http.Error appends, and no further validation runs: the attestation
provider is never invoked. -/
theorem handler_rejects_non_get (certHash : List Nat) (dev : NsmDevice)
    (r : HttpRequest) (h : r.method ≠ "GET") :
    getAttestationHandler certHash dev r =
      (⟨405, errMethodNotGET ++ "\n"⟩, none) := by
  unfold getAttestationHandler
  rw [if_pos h]
  rfl

theorem handler_rejects_non_get_witness :
    getAttestationHandler zeroFingerprint devOkC ⟨"POST", true, nonce40⟩ =
      (⟨405, errMethodNotGET ++ "\n"⟩, none) :=
  handler_rejects_non_get zeroFingerprint devOkC ⟨"POST", true, nonce40⟩ (by decide)

/-- C9 (counterexample to the claim as stated): a POST request is
answered with status 405, but its body is NOT the message quoted by the
claim (neither with nor without the trailing newline); the message in the code
message has the word HTTP in it. -/
theorem handler_non_get_message_counterexample :
    (getAttestationHandler zeroFingerprint devOkC ⟨"POST", true, nonce40⟩).1.status = 405 ∧
    (getAttestationHandler zeroFingerprint devOkC ⟨"POST", true, nonce40⟩).1.body ≠
      "only GET requests are allowed" ++ "\n" ∧
    (getAttestationHandler zeroFingerprint devOkC ⟨"POST", true, nonce40⟩).1.body ≠
      "only GET requests are allowed" := by
  exact ⟨rfl, by decide, by decide⟩

/-- C2 (failing-input evaluation): the nonce of 42 lowercase hex digits
is not a 40-digit nonce, yet the unanchored regular-expression check
accepts it because it CONTAINS a 40-digit run, hex decoding succeeds (21
bytes), and the handler invokes the attestation provider with those 21
bytes and even answers 200 — the claim requires status 400 and no
provider invocation for every such nonce. -/
theorem nonce_check_accepts_42_hex_digits :
    isExact40LowerHexNonce nonce42 = false ∧
    (getAttestationHandler zeroFingerprint devOkC ⟨"GET", true, nonce42⟩).2 =
      some (List.replicate 21 170) ∧
    (getAttestationHandler zeroFingerprint devOkC ⟨"GET", true, nonce42⟩).1.status = 200 := by
  exact ⟨by decide, by decide, by decide⟩

/-- C7: whenever the handler invokes the attestation provider, the raw
nonce it passes is exactly the hex decoding of the nonce query-parameter
string (so its byte length is half the digit count: 40 digits give 20
bytes), and hex decoding is left inverse to hex encoding on byte lists. -/
theorem handler_passes_hex_decoded_nonce :
    (∀ (certHash : List Nat) (dev : NsmDevice) (r : HttpRequest) (rawNonce : List Nat),
      (getAttestationHandler certHash dev r).2 = some rawNonce →
      hexDecodeChars r.nonce.data = some rawNonce ∧
        2 * rawNonce.length = r.nonce.data.length) ∧
    (∀ bs : List Nat, (∀ b ∈ bs, b < 256) →
      hexDecodeChars (hexEncodeBytes bs) = some bs) := by
  constructor
  · intro certHash dev r rawNonce h
    unfold getAttestationHandler at h
    split at h
    · simp at h
    split at h
    · simp at h
    split at h
    · simp at h
    split at h
    · simp at h
    split at h
    · simp at h
    next raw hdec =>
      split at h <;> simp only at h <;> (injection h with h; subst h) <;>
        exact ⟨hdec, hexDecodeChars_length _ _ hdec⟩
  · exact hexDecode_hexEncode

theorem handler_passes_hex_decoded_nonce_witness :
    hexDecodeChars nonce40.data = some (List.replicate 20 170) ∧
    hexDecodeChars (hexEncodeBytes [0, 171, 255]) = some [0, 171, 255] := by
  constructor
  · exact (handler_passes_hex_decoded_nonce.1 zeroFingerprint devOkC
      ⟨"GET", true, nonce40⟩ (List.replicate 20 170) (by decide)).1
  · exact handler_passes_hex_decoded_nonce.2 [0, 171, 255] (by decide)

/-- C8: for every GET request whose nonce is 40 lowercase hex digits and
whose form parses, against a device whose session answers every request
with an empty error field and the document doc, the handler responds
with status 200 and a body that is exactly the standard base64 encoding
of doc followed by one newline (fmt.Fprintln). -/
theorem handler_success_response (certHash : List Nat)
    (send : AttestationRequest → NsmResponse × Option String) (cErr : Option String)
    (r : HttpRequest) (doc : List Nat)
    (hm : r.method = "GET") (hp : r.parseFormOk = true)
    (hlen : r.nonce.data.length = 40)
    (hhex : ∀ c ∈ r.nonce.data, isLowerHexDigit c = true)
    (hsend : ∀ req, (send req).1 = ⟨"", some ⟨some doc⟩⟩) :
    (getAttestationHandler certHash ⟨.ok ⟨send, cErr⟩⟩ r).1 =
      ⟨200, base64Encode doc ++ "\n"⟩ := by
  have hne : r.nonce ≠ "" := by
    intro h0
    rw [h0] at hlen
    simp at hlen
  have hmatch := matchNonceRegExp_of_all r.nonce hlen hhex
  obtain ⟨bs, hbs, _⟩ := hexDecodeChars_total r.nonce.data hhex (by omega)
  unfold getAttestationHandler
  rw [if_neg (by simp [hm]), if_neg (by simp [hp]), if_neg (by simp [hne]),
      if_neg (by simp [hmatch]), hbs]
  simp only [attest, hsend]
  rfl

theorem handler_success_response_witness :
    (getAttestationHandler zeroFingerprint ⟨.ok ⟨sendOkC, none⟩⟩
        ⟨"GET", true, nonce40⟩).1 =
      ⟨200, base64Encode [7] ++ "\n"⟩ :=
  handler_success_response zeroFingerprint sendOkC none ⟨"GET", true, nonce40⟩ [7]
    rfl rfl (by decide) (by decide) (fun _ => rfl)

/-- C5: over a buffer of CERTIFICATE PEM blocks that all parse, if some
certificate in it is not a CA, then setCertFingerprint succeeds and sets
the fingerprint to the hash of the raw DER bytes of the FIRST non-CA
certificate, wherever the CA certificates sit relative to it. -/
theorem setCertFingerprint_first_nonCA
    (parseCertificate : List Nat → Except String Cert)
    (sha256sum : List Nat → List Nat) (certs : List Cert) (c0 : Cert)
    (hparse : ∀ c ∈ certs, parseCertificate c.raw = Except.ok c)
    (hfind : certs.find? (fun c => !c.isCA) = some c0) :
    setCertFingerprint parseCertificate sha256sum
        (certs.map fun c => ⟨"CERTIFICATE", c.raw⟩) =
      Except.ok (some (sha256sum c0.raw)) := by
  induction certs with
  | nil => simp [List.find?] at hfind
  | cons c cs ih =>
    cases hca : c.isCA with
    | false =>
      rw [List.find?_cons_of_pos _ (by rw [hca]; rfl)] at hfind
      injection hfind with hfind
      subst hfind
      simp [setCertFingerprint, hparse c (List.mem_cons_self c cs), hca]
    | true =>
      rw [List.find?_cons_of_neg _ (by rw [hca]; simp)] at hfind
      simp only [List.map_cons]
      unfold setCertFingerprint
      rw [if_pos rfl, hparse c (List.mem_cons_self c cs)]
      simp only [hca, Bool.not_true]
      exact ih (fun x hx => hparse x (List.mem_cons_of_mem c hx)) hfind

theorem setCertFingerprint_first_nonCA_witness :
    setCertFingerprint parseC hashC
        ([⟨[1], true⟩, ⟨[2], false⟩, ⟨[3], true⟩].map
          fun c : Cert => ⟨"CERTIFICATE", c.raw⟩) =
      Except.ok (some (hashC [2])) :=
  setCertFingerprint_first_nonCA parseC hashC
    [⟨[1], true⟩, ⟨[2], false⟩, ⟨[3], true⟩] ⟨[2], false⟩
    (by
      intro c hc
      simp only [List.mem_cons, List.not_mem_nil, or_false] at hc
      rcases hc with rfl | rfl | rfl <;> rfl)
    (by rfl)

/-- C6 (failing-input evaluation): an empty buffer yields the
malformed-input error, as the claim says; but a buffer holding a single
CA certificate yields the SAME malformed-input error rather than the
claimed non-fatal not-found outcome, because the shadowed rest variable
makes the trailing return nil of the loop unreachable: after the CA block is
consumed, pem.Decode runs once more on the exhausted buffer and the
error path is taken. -/
theorem setCertFingerprint_allCA_is_error :
    setCertFingerprint parseC hashC [] = Except.error malformedPemMsg ∧
    setCertFingerprint parseC hashC [⟨"CERTIFICATE", [1]⟩] =
      Except.error malformedPemMsg ∧
    (⟨[1], true⟩ : Cert).isCA = true := by
  exact ⟨rfl, rfl, rfl⟩

/-- Self-signed startup (context for C1, confirming the claim on this
strategy): genSelfSignedCert synchronously fingerprints the freshly
created leaf certificate and installs it, and Start registers the
handler only afterwards, so the captured fingerprint is exactly the hash
of the active certificate. -/
theorem startSelfSigned_fingerprint_matches
    (parseCertificate : List Nat → Except String Cert)
    (sha256sum : List Nat → List Nat) (newCert : Cert)
    (hparse : parseCertificate newCert.raw = Except.ok newCert)
    (hleaf : newCert.isCA = false) :
    startSelfSigned parseCertificate sha256sum newCert =
      Except.ok ⟨sha256sum newCert.raw, some (sha256sum newCert.raw), some newCert⟩ := by
  have h1 : setCertFingerprint parseCertificate sha256sum
      [⟨"CERTIFICATE", newCert.raw⟩] =
      Except.ok (some (sha256sum newCert.raw)) := by
    unfold setCertFingerprint
    rw [if_pos rfl, hparse]
    simp [hleaf]
  unfold startSelfSigned
  rw [h1]

theorem startSelfSigned_fingerprint_matches_witness :
    startSelfSigned parseC hashC acmeC =
      Except.ok ⟨hashC acmeC.raw, some (hashC acmeC.raw), some acmeC⟩ :=
  startSelfSigned_fingerprint_matches parseC hashC acmeC rfl rfl

/-- C1 (failing-input evaluation): in the external-issuance path, with
the events in the order the program lays out (Start registers the
handler immediately after setupAcme returns; the poller obtains the
certificate later), the final state serves the ACME certificate, whose
recomputed fingerprint is hashC of its raw bytes, while the registered
handler holds the zero fingerprint that certFpr had at registration —
and the two differ.  Every provider invocation of that handler passes
the captured (zero) value as user data, per getAttestationHandler. -/
theorem acme_handler_has_stale_fingerprint :
    (startAcme parseC hashC acmeC
        [AcmeEvent.registerHandler, AcmeEvent.fetchCertificate]).activeCert =
      some acmeC ∧
    (startAcme parseC hashC acmeC
        [AcmeEvent.registerHandler, AcmeEvent.fetchCertificate]).certFpr =
      hashC acmeC.raw ∧
    (startAcme parseC hashC acmeC
        [AcmeEvent.registerHandler, AcmeEvent.fetchCertificate]).handlerFpr =
      some zeroFingerprint ∧
    zeroFingerprint ≠ hashC acmeC.raw := by
  exact ⟨rfl, rfl, rfl, by decide⟩

end NitroEnclaveUtils
